import Mathlib

/-!
A shallow embedding of the git-state synchronization engine of the
`obsidian-git-backup` plugin (`src/main.js`, latest revision, together with
the earlier revisions kept in the same file and in `src/unnamed/part_000`).

The pure string-processing layer (`parseGitDiffNumstat` and the JavaScript
string primitives it relies on) is embedded as executable functions on
`List Char` / `String`.  The effectful sync-cycle layer (`gitFetch`,
`gitCommitAll`, `gitPush`, `gitSync`, `updateStatusBar`, `unlinkForce`) is
embedded in a state monad `M` over an oracle `World` describing the outcome
of every external-tool invocation and filesystem operation, plus a mutable
`SyncState` holding the filesystem view and the trace of performed effects.
-/

/-! ## JavaScript string primitives -/

/-- The whitespace characters recognised by the JavaScript `trim`/`\s`
machinery as they can occur in `git` output: space, tab, newline, carriage
return, vertical tab, form feed, no-break space, BOM. -/
def isJsWs (c : Char) : Bool :=
  c = ' ' || c = '\t' || c = '\n' || c = '\r' || c = '\x0b' ||
  c = '\x0c' || c = ' ' || c = '﻿'

/-- Drop leading JavaScript whitespace. -/
def trimLeft (cs : List Char) : List Char := cs.dropWhile isJsWs

/-- Drop trailing JavaScript whitespace. -/
def trimRight (cs : List Char) : List Char :=
  (cs.reverse.dropWhile isJsWs).reverse

/-- JavaScript `String.prototype.trim` on a character list. -/
def jsTrimList (cs : List Char) : List Char := trimRight (trimLeft cs)

/-- JavaScript `String.prototype.trim`. -/
def jsTrim (s : String) : String := ⟨jsTrimList s.data⟩

/-- JavaScript `out.split("\n")`: split into lines at every newline; an empty
string yields the single empty line, a trailing newline yields a trailing
empty line. -/
def splitLines : List Char → List (List Char)
  | [] => [[]]
  | c :: rest =>
    if c = '\n' then [] :: splitLines rest
    else
      match splitLines rest with
      | [] => [[c]]
      | l :: ls => (c :: l) :: ls

/-- JavaScript `line.split(/\s+/)` (no limit), one character at a time.
`acc` is the current token read so far (reversed); `inWs` records that the
scan stands inside a whitespace run whose token boundary has already been
emitted, so that a run ending the string contributes a trailing empty
piece, exactly as the JavaScript `split` does. -/
def splitWsAux : List Char → List Char → Bool → List (List Char)
  | [], acc, inWs => if inWs then [[]] else [acc.reverse]
  | c :: rest, acc, inWs =>
    if inWs then
      if isJsWs c then splitWsAux rest acc true
      else splitWsAux rest [c] false
    else
      if isJsWs c then acc.reverse :: splitWsAux rest [] true
      else splitWsAux rest (c :: acc) false

/-- JavaScript `line.split(/\s+/)`: the pieces of the string between
maximal whitespace runs, with an empty piece at an end that touches a
whitespace run. -/
def splitWs (cs : List Char) : List (List Char) := splitWsAux cs [] false

/-- The numeric value of the maximal leading decimal-digit run, or `none`
when the string does not start with a digit. -/
def digitsVal (cs : List Char) : Option Nat :=
  let ds := cs.takeWhile Char.isDigit
  if ds.isEmpty then none
  else some (ds.foldl (fun a c => a * 10 + (c.toNat - 48)) 0)

/-- A JavaScript number as it arises in this program: a mathematical
integer, or the floating-point `NaN` produced by `parseInt` on a
non-numeric string. -/
inductive JsNum where
  | nan : JsNum
  | int : Int → JsNum
deriving DecidableEq, Repr

/-- JavaScript `+` on the numbers above: `NaN` absorbs. -/
def JsNum.add : JsNum → JsNum → JsNum
  | .int a, .int b => .int (a + b)
  | _, _ => .nan

/-- JavaScript `parseInt(x)` for the arguments this program passes it: a
column string of a `--numstat` line (decimal digits, optionally signed, or
the binary-file marker `-`), or `undefined` (`none`) when the line has too
few columns.  Leading whitespace is skipped; a string with no leading
digits after the optional sign — in particular the bare marker `-` —
parses to `NaN`. -/
def parseIntJS : Option (List Char) → JsNum
  | none => .nan
  | some cs =>
    match cs.dropWhile isJsWs with
    | '-' :: rest =>
      match digitsVal rest with
      | none => .nan
      | some n => .int (-(n : Int))
    | '+' :: rest =>
      match digitsVal rest with
      | none => .nan
      | some n => .int (n : Int)
    | other =>
      match digitsVal other with
      | none => .nan
      | some n => .int (n : Int)

/-! ## Change-Set Accountant: `parseGitDiffNumstat` -/

/-- The `{ filesChanged, insertions, deletions }` record returned by
`parseGitDiffNumstat`.  `filesChanged` is incremented by one per non-blank
line and is always a plain integer; `insertions`/`deletions` accumulate
`parseInt` results and can be `NaN`. -/
structure ChangeSet where
  filesChanged : Nat
  insertions : JsNum
  deletions : JsNum
deriving DecidableEq, Repr

/-- The `cols` local of the loop body: `line.split(/\s+/, 3)`, i.e. the
whitespace-split of the line truncated to its first three pieces. -/
def numstatCols (line : List Char) : List (List Char) :=
  (splitWs line).take 3

/-- One iteration of the `for` loop of `parseGitDiffNumstat`
(src/main.js:919-926): a blank line is skipped; otherwise the line is split
into at most three whitespace-separated columns, the file count is
incremented, and the first two columns are `parseInt`-ed into the running
insertion/deletion sums. -/
def numstatStep (stats : ChangeSet) (line : List Char) : ChangeSet :=
  if (jsTrimList line).isEmpty then stats
  else
    { filesChanged := stats.filesChanged + 1
      insertions := stats.insertions.add (parseIntJS ((numstatCols line).get? 0))
      deletions := stats.deletions.add (parseIntJS ((numstatCols line).get? 1)) }

/-- `parseGitDiffNumstat` (src/main.js:912-929): trim the whole output,
split it into lines, and fold every non-blank line into the statistics,
starting from `{ filesChanged: 0, insertions: 0, deletions: 0 }`. -/
def parseGitDiffNumstat (out : String) : ChangeSet :=
  (splitLines (jsTrimList out.data)).foldl numstatStep
    ⟨0, .int 0, .int 0⟩

example : parseGitDiffNumstat "" = ⟨0, .int 0, .int 0⟩ := by decide
example : parseGitDiffNumstat "3\t1\ta.md" = ⟨1, .int 3, .int 1⟩ := by decide
example : parseGitDiffNumstat "-\t-\tlogo.png" = ⟨1, .nan, .nan⟩ := by decide
example : parseGitDiffNumstat "3\t1\ta.md\n0\t0\tb.md\n" = ⟨2, .int 3, .int 1⟩ := by decide

/-! ## The effectful layer: oracle, state, monad -/

/-- A JavaScript exception as thrown by this program: the `Error` raised by
the throwing `assert` helper (src/main.js:1077-1080), the rejection of a
`git` invocation with non-zero exit (`execFile`), or a filesystem rejection
carrying a `code` such as `"ENOENT"`. -/
inductive JsError where
  | assertFail : String → JsError
  | toolFailure : List String → String → JsError
  | fsFailure : String → JsError
deriving DecidableEq, Repr

/-- An externally visible effect of one sync cycle, in order of
occurrence: an `exists` probe, a `git` invocation (binary, environment
variables, argument vector), a file write, an `unlink` attempt, or a
diagnostic printed by a failed `console.assert`. -/
inductive Eff where
  | checkExists : String → Eff
  | exec : String → List (String × String) → List String → Eff
  | fileWrite : String → String → Eff
  | unlinkAttempt : String → Eff
  | consoleError : String → Eff
deriving DecidableEq, Repr

/-- What `fs.promises.unlink` would find at a path: a deletable file, no
file (`ENOENT`), or a file whose removal fails with some other error code
(e.g. `EACCES`). -/
inductive FileBehavior where
  | present : FileBehavior
  | absent : FileBehavior
  | erroring : String → FileBehavior
deriving DecidableEq, Repr

/-- The `{ stdout, stderr }` of an external-tool invocation, together with
whether the tool exited with status zero (`execFile` resolves) or not
(`execFile` rejects). -/
structure ExecOut where
  exit0 : Bool
  stdout : String
  stderr : String

/-- The oracle fixing the outcome of every external interaction of a run:
which paths exist, what every `git` invocation produces, and whether the
single `writeFile` call succeeds (`none`) or rejects with an error code. -/
structure World where
  pathExists : String → Bool
  exec : String → List (String × String) → List String → ExecOut
  writeResult : Option String

/-- The mutable part of a run: the filesystem as seen by `unlink`, and the
trace of effects performed so far. -/
structure SyncState where
  fs : String → FileBehavior
  trace : List Eff

/-- The monad of the embedding: an oracle-reading, state-passing,
exception-carrying computation.  The state survives a thrown exception, so
the trace records exactly the effects performed before a failure. -/
def M (α : Type) := World → SyncState → Except JsError α × SyncState

def M.pure (a : α) : M α := fun _ s => (.ok a, s)

def M.bind (x : M α) (f : α → M β) : M β := fun w s =>
  match x w s with
  | (.ok a, s') => f a w s'
  | (.error e, s') => (.error e, s')

/-- JavaScript `try { body } catch (e) { handler(e) }`. -/
def M.tryCatch (body : M α) (handler : JsError → M α) : M α := fun w s =>
  match body w s with
  | (.ok a, s') => (.ok a, s')
  | (.error e, s') => handler e w s'

/-- JavaScript `try { body } finally { fin }`: the finaliser runs whether
the body returns or throws; a finaliser that completes normally leaves the
body's outcome in place, a finaliser that throws replaces it. -/
def M.tryFinally (body : M α) (fin : M Unit) : M α := fun w s =>
  match body w s with
  | (.ok a, s') =>
    match fin w s' with
    | (.ok _, s'') => (.ok a, s'')
    | (.error e, s'') => (.error e, s'')
  | (.error e, s') =>
    match fin w s' with
    | (.ok _, s'') => (.error e, s'')
    | (.error e', s'') => (.error e', s'')

/-- `execEnv` (src/main.js:994-996): run the tool with the given
environment map and arguments; a non-zero exit makes the awaited promise
reject with the tool's stderr. -/
def execEnv (file : String) (env : List (String × String))
    (args : List String) : M ExecOut := fun w s =>
  let out := w.exec file env args
  let s' : SyncState := ⟨s.fs, s.trace ++ [Eff.exec file env args]⟩
  if out.exit0 then (.ok out, s') else (.error (.toolFailure args out.stderr), s')

/-- `exists` (src/main.js:1042-1049): `access` resolves or rejects; the
function never throws, it returns the boolean. -/
def fsExists (p : String) : M Bool := fun w s =>
  (.ok (w.pathExists p), ⟨s.fs, s.trace ++ [Eff.checkExists p]⟩)

/-- `writeFile` (src/main.js:1032-1034): `fs.promises.writeFile`, which
either resolves or rejects with a coded filesystem error. -/
def writeFile (p contents : String) : M Unit := fun w s =>
  let s' : SyncState := ⟨s.fs, s.trace ++ [Eff.fileWrite p contents]⟩
  match w.writeResult with
  | none => (.ok (), s')
  | some code => (.error (.fsFailure code), s')

/-- `fs.promises.unlink`: removing a present file succeeds and leaves the
path absent; an absent path rejects with `ENOENT`; an erroring path
rejects with its code and is left unchanged. -/
def fsUnlink (p : String) : M Unit := fun _ s =>
  let tr := s.trace ++ [Eff.unlinkAttempt p]
  match s.fs p with
  | .present => (.ok (), ⟨fun q => if q = p then .absent else s.fs q, tr⟩)
  | .absent => (.error (.fsFailure "ENOENT"), ⟨s.fs, tr⟩)
  | .erroring code => (.error (.fsFailure code), ⟨s.fs, tr⟩)

/-- `unlinkForce` (src/main.js:1058-1070): unlink, swallowing only the
`ENOENT` rejection; every other coded failure is re-thrown. -/
def unlinkForce (p : String) : M Unit := fun w s =>
  match fsUnlink p w s with
  | (.ok _, s') => (.ok (), s')
  | (.error (.fsFailure code), s') =>
    if code = "ENOENT" then (.ok (), s') else (.error (.fsFailure code), s')
  | (r, s') => (r, s')

/-- `console.assert(value, message)`: prints the diagnostic when the value
is falsy and always continues. -/
def consoleAssert (value : Bool) (message : String) : M Unit := fun _ s =>
  if value then (.ok (), s)
  else (.ok (), ⟨s.fs, s.trace ++ [Eff.consoleError message]⟩)

/-- `assert` (src/main.js:1077-1080): `console.assert` followed by
`throw new Error(message)` when the value is falsy. -/
def assert (value : Bool) (message : String) : M Unit := fun _ s =>
  if value then (.ok (), s)
  else (.error (.assertFail message), ⟨s.fs, s.trace ++ [Eff.consoleError message]⟩)

/-! ## The Sync Engine (src/main.js, latest revision, lines 383-1083) -/

/-- The plugin settings consumed by a sync cycle (`DEFAULT_SETTINGS` shape,
src/main.js:396-406). -/
structure Settings where
  enabled : Bool
  gitBinPath : String
  gitDir : String
  gitRemoteURL : String
  gitBranchName : String
  gitUserName : String
  gitUserEmail : String
  gitCommitMessageTimestampFormat : String
  gitIgnore : String

/-- `gitFetch` (src/main.js:859-873): when the repository directory exists,
read the recorded `remote.origin.url`, `assert` (throwing) that it equals
the configured URL exactly, then fetch; otherwise clone the remote as a
bare repository.  `path.join` is modeled as `/`-concatenation throughout. -/
def gitFetch (gitBinPath gitDir url : String) : M Unit :=
  let env := [("GIT_DIR", gitDir)]
  M.bind (fsExists gitDir) fun ex =>
  if ex then
    M.bind (execEnv gitBinPath env ["config", "--local", "remote.origin.url"]) fun out =>
    M.bind (assert (jsTrim out.stdout == url) "Unexpected remote URL") fun _ =>
    M.bind (execEnv gitBinPath env ["fetch", "origin"]) fun _ =>
    M.pure ()
  else
    M.bind (execEnv gitBinPath env ["clone", "--bare", url, gitDir]) fun _ =>
    M.pure ()

/-- `gitPush` (src/main.js:884-889). -/
def gitPush (gitBinPath gitDir repository refspec : String) : M Unit :=
  M.bind (execEnv gitBinPath [("GIT_DIR", gitDir)] ["push", repository, refspec]) fun _ =>
  M.pure ()

/-- `gitStat` (src/main.js:899-904): the read-only diff of the work tree
against `HEAD`, parsed with `parseGitDiffNumstat`. -/
def gitStat (gitBinPath gitDir gitWorkTree : String) : M ChangeSet :=
  let env := [("GIT_DIR", gitDir), ("GIT_WORK_TREE", gitWorkTree)]
  M.bind (execEnv gitBinPath env ["diff", "--numstat", "HEAD"]) fun out =>
  M.pure (parseGitDiffNumstat out.stdout)

/-- The `{ commitSha, ...stats }` record returned by a committing run of
`gitCommitAll` (src/main.js:976). -/
structure CommitInfo where
  commitSha : String
  filesChanged : Nat
  insertions : JsNum
  deletions : JsNum
deriving DecidableEq, Repr

/-- The environment-variable map of the commit-phase invocations
(src/main.js:951-958): repository, work tree, and author/committer
identity, set explicitly per call. -/
def commitEnv (gitDir gitWorkTree gitUserName gitUserEmail : String) :
    List (String × String) :=
  [("GIT_DIR", gitDir), ("GIT_WORK_TREE", gitWorkTree),
    ("GIT_AUTHOR_NAME", gitUserName), ("GIT_AUTHOR_EMAIL", gitUserEmail),
    ("GIT_COMMITTER_NAME", gitUserName), ("GIT_COMMITTER_EMAIL", gitUserEmail)]

/-- The `try` block of `gitCommitAll` (src/main.js:961-980): write the
configured ignore patterns into `info/exclude`, reset the index, restage
the whole work tree, diff the staged index, and — only when
`stats.filesChanged > 0` — commit and `rev-parse` the new `HEAD`.  The
`console.assert` on the SHA length logs but never throws. -/
def gitCommitAllBody (gitBinPath gitDir gitWorkTree commitMessage
    gitUserName gitUserEmail gitIgnore : String) : M (Option CommitInfo) :=
  let env := commitEnv gitDir gitWorkTree gitUserName gitUserEmail
  M.bind (writeFile (gitDir ++ "/info/exclude") gitIgnore) fun _ =>
  M.bind (execEnv gitBinPath env ["reset", "--mixed", "HEAD"]) fun _ =>
  M.bind (execEnv gitBinPath env ["rm", "-r", "--cached", "."]) fun _ =>
  M.bind (execEnv gitBinPath env ["add", "."]) fun _ =>
  M.bind (execEnv gitBinPath env ["diff", "--staged", "--numstat"]) fun out =>
  let stats := parseGitDiffNumstat out.stdout
  if stats.filesChanged > 0 then
    M.bind (execEnv gitBinPath env ["commit", "--message", commitMessage]) fun _ =>
    M.bind (execEnv gitBinPath env ["rev-parse", "HEAD"]) fun out2 =>
    let commitSha := jsTrim out2.stdout
    M.bind (consoleAssert (commitSha.length == 40) "Bad commit SHA") fun _ =>
    M.pure (some ⟨commitSha, stats.filesChanged, stats.insertions, stats.deletions⟩)
  else
    M.pure none

/-- `gitCommitAll` (src/main.js:942-984): the staging/commit body wrapped
in the `finally` that force-unlinks the transient `COMMIT_EDITMSG` scratch
file. -/
def gitCommitAll (gitBinPath gitDir gitWorkTree commitMessage
    gitUserName gitUserEmail gitIgnore : String) : M (Option CommitInfo) :=
  M.tryFinally
    (gitCommitAllBody gitBinPath gitDir gitWorkTree commitMessage
      gitUserName gitUserEmail gitIgnore)
    (unlinkForce (gitDir ++ "/COMMIT_EDITMSG"))

/-- `GitBackupPlugin.gitSync` (src/main.js:657-697): assert the
preconditions (enabled plugin, git binary, repository directory, remote
URL — JavaScript truthiness of a string is `≠ ""`), fetch or clone, commit
everything, and push only when a commit was made, reporting
`"Pushed <N> files"`; otherwise report `"No changes"`.  The work tree and
the formatted `moment()` timestamp are inputs resolved by the host. -/
def gitSync (st : Settings) (gitWorkTree timestamp : String) : M String :=
  M.bind (assert st.enabled "plugin is disabled") fun _ =>
  M.bind (assert (st.gitBinPath != "") "gitBinPath isn't set") fun _ =>
  M.bind (assert (st.gitDir != "") "gitDir isn't set") fun _ =>
  M.bind (assert (st.gitRemoteURL != "") "gitRemoteURL isn't set") fun _ =>
  M.bind (gitFetch st.gitBinPath st.gitDir st.gitRemoteURL) fun _ =>
  let commitMessage := "vault backup: " ++ timestamp
  M.bind (gitCommitAll st.gitBinPath st.gitDir gitWorkTree commitMessage
    st.gitUserName st.gitUserEmail st.gitIgnore) fun commit =>
  match commit with
  | some c =>
    M.bind (gitPush st.gitBinPath st.gitDir "origin" st.gitBranchName) fun _ =>
    M.pure ("Pushed " ++ toString c.filesChanged ++ " files")
  | none => M.pure "No changes"

/-- `GitBackupPlugin.updateStatusBar` (src/main.js:612-627): the read-only
status refresh.  It returns `none` when the status bar, the enabled flag,
the git binary or the repository directory is missing — the remote URL is
never consulted — and otherwise returns the text written into the
status-bar span.  `hasStatusBarItem`/`hasSpan` model the DOM state. -/
def updateStatusBar (st : Settings) (hasStatusBarItem hasSpan : Bool)
    (gitWorkTree : String) : M (Option String) :=
  if !hasStatusBarItem || !st.enabled || st.gitBinPath == "" || st.gitDir == "" then
    M.pure none
  else
    M.bind (assert hasSpan "status bar missing span") fun _ =>
    M.bind (gitStat st.gitBinPath st.gitDir gitWorkTree) fun stats =>
    if stats.filesChanged > 0 then
      M.pure (some (toString stats.filesChanged ++ " files changed"))
    else
      M.pure (some "No changes")

/-! ## The earlier `gitCommitAll` revision with a transient index file
(src/main.js, first revision, lines 225-274) -/

/-- The environment-variable map of the first-revision commit phase
(src/main.js:236-244): as `commitEnv`, plus the cycle-private
`GIT_INDEX_FILE`. -/
def commitEnvV1 (gitDir indexFile gitWorkTree gitUserName gitUserEmail : String) :
    List (String × String) :=
  [("GIT_DIR", gitDir), ("GIT_INDEX_FILE", indexFile),
    ("GIT_WORK_TREE", gitWorkTree),
    ("GIT_AUTHOR_NAME", gitUserName), ("GIT_AUTHOR_EMAIL", gitUserEmail),
    ("GIT_COMMITTER_NAME", gitUserName), ("GIT_COMMITTER_EMAIL", gitUserEmail)]

/-- The `try` block of the first-revision `gitCommitAll`
(src/main.js:247-269): stage the work tree into a cycle-private index
file, probe for staged changes with `diff --staged --quiet` (a non-zero
exit — caught — means changes exist), and commit and `rev-parse` when
there are changes. -/
def gitCommitAllV1Body (gitBinPath gitDir gitWorkTree commitMessage
    gitUserName gitUserEmail indexFile : String) : M (Option String) :=
  let env := commitEnvV1 gitDir indexFile gitWorkTree gitUserName gitUserEmail
  M.bind (execEnv gitBinPath env ["add", "."]) fun _ =>
  M.bind (M.tryCatch
      (M.bind (execEnv gitBinPath env ["diff", "--staged", "--quiet"]) fun _ =>
        M.pure false)
      (fun _ => M.pure true)) fun hasChanges =>
  if hasChanges then
    M.bind (execEnv gitBinPath env ["commit", "--message", commitMessage]) fun _ =>
    M.bind (execEnv gitBinPath env ["rev-parse", "HEAD"]) fun out =>
    M.pure (some (jsTrim out.stdout))
  else
    M.pure none

/-- The `finally` block of the first-revision `gitCommitAll`
(src/main.js:270-273): force-unlink the `COMMIT_EDITMSG` scratch file and
then the cycle-private index file. -/
def gitCommitAllV1Cleanup (gitDir indexFile : String) : M Unit :=
  M.bind (unlinkForce (gitDir ++ "/COMMIT_EDITMSG")) fun _ =>
  unlinkForce indexFile

/-- The first-revision `gitCommitAll` (src/main.js:225-274): the body and
the always-running cleanup.  `randSuffix` stands for the
`Math.random().toString(36).substring(2, 15)` value; the transient index
file is `<gitDir>/index.<randSuffix>`. -/
def gitCommitAllV1 (gitBinPath gitDir gitWorkTree commitMessage
    gitUserName gitUserEmail randSuffix : String) : M (Option String) :=
  let indexFile := gitDir ++ "/index." ++ randSuffix
  M.tryFinally
    (gitCommitAllV1Body gitBinPath gitDir gitWorkTree commitMessage
      gitUserName gitUserEmail indexFile)
    (gitCommitAllV1Cleanup gitDir indexFile)

/-! ## Lemmas about the string layer -/

/-- `split` never returns an empty array. -/
theorem splitLines_ne_nil (cs : List Char) : splitLines cs ≠ [] := by
  cases cs with
  | nil => simp [splitLines]
  | cons c rest =>
    simp only [splitLines]
    split
    · simp
    · split <;> simp

/-- A string trims to the empty string exactly when all its characters are
whitespace. -/
theorem jsTrimList_eq_nil_iff {cs : List Char} :
    jsTrimList cs = [] ↔ ∀ c ∈ cs, isJsWs c := by
  unfold jsTrimList trimRight trimLeft
  constructor
  · intro h c hc
    rw [List.reverse_eq_nil_iff, List.dropWhile_eq_nil_iff] at h
    have h' : ∀ x ∈ cs.dropWhile isJsWs, isJsWs x := by
      intro x hx; exact h x (List.mem_reverse.mpr hx)
    have hc' : c ∈ cs.takeWhile isJsWs ++ cs.dropWhile isJsWs := by
      rw [List.takeWhile_append_dropWhile]; exact hc
    rcases List.mem_append.mp hc' with h1 | h2
    · exact List.mem_takeWhile_imp h1
    · exact h' c h2
  · intro h
    have h1 : cs.dropWhile isJsWs = [] := List.dropWhile_eq_nil_iff.mpr h
    rw [h1]; rfl

/-- If every line of a string is blank, the whole string is whitespace
(the separators are newlines, which are whitespace themselves). -/
theorem blank_lines_all_ws : ∀ cs : List Char,
    (∀ l ∈ splitLines cs, jsTrimList l = []) → ∀ c ∈ cs, isJsWs c := by
  intro cs
  induction cs with
  | nil => intro _ c hc; cases hc
  | cons c rest ih =>
    intro h x hx
    by_cases hnl : c = '\n'
    · subst hnl
      have hrest : ∀ l ∈ splitLines rest, jsTrimList l = [] := by
        intro l hl; exact h l (by simp [splitLines, hl])
      rcases List.mem_cons.mp hx with rfl | hx'
      · decide
      · exact ih hrest x hx'
    · obtain ⟨l, ls, hsplit⟩ : ∃ l ls, splitLines rest = l :: ls := by
        cases hr : splitLines rest with
        | nil => exact absurd hr (splitLines_ne_nil rest)
        | cons l ls => exact ⟨l, ls, rfl⟩
      have hform : splitLines (c :: rest) = (c :: l) :: ls := by
        simp [splitLines, hnl, hsplit]
      have hhead : jsTrimList (c :: l) = [] := by
        exact h _ (by rw [hform]; exact List.mem_cons_self _ _)
      have hcl : ∀ y ∈ c :: l, isJsWs y := jsTrimList_eq_nil_iff.mp hhead
      have hrest : ∀ l' ∈ splitLines rest, jsTrimList l' = [] := by
        intro l' hl'
        rw [hsplit] at hl'
        rcases List.mem_cons.mp hl' with rfl | hl''
        · exact jsTrimList_eq_nil_iff.mpr
            (fun y hy => hcl y (List.mem_cons_of_mem _ hy))
        · exact h l' (by rw [hform]; exact List.mem_cons_of_mem _ hl'')
      rcases List.mem_cons.mp hx with rfl | hx'
      · exact hcl x (List.mem_cons_self _ _)
      · exact ih hrest x hx'

/-- Blank lines are invisible to the numstat fold: folding over all lines
equals folding over the non-blank lines only. -/
theorem foldl_numstatStep_filter (s : ChangeSet) (lines : List (List Char)) :
    lines.foldl numstatStep s =
      (lines.filter fun l => !(jsTrimList l).isEmpty).foldl numstatStep s := by
  induction lines generalizing s with
  | nil => rfl
  | cons l ls ih =>
    by_cases hb : (jsTrimList l).isEmpty
    · have hstep : numstatStep s l = s := by simp [numstatStep, hb]
      simp only [List.foldl_cons, List.filter_cons, hb, Bool.not_true, hstep]
      exact ih s
    · simp only [List.foldl_cons, List.filter_cons, hb, Bool.not_false]
      exact ih (numstatStep s l)

/-! ## Claim C5 -/

/-- C5: for every input string to `parseGitDiffNumstat` containing zero
non-blank lines — every line of the input trims to the empty string, which
covers the empty string, whitespace-only strings and output with a
trailing empty line — the result is the zero ChangeSet
`{filesChanged: 0, insertions: 0, deletions: 0}`. -/
theorem parseGitDiffNumstat_zero_of_blank (out : String)
    (h : ∀ l ∈ splitLines out.data, jsTrimList l = []) :
    parseGitDiffNumstat out = ⟨0, .int 0, .int 0⟩ := by
  have hws : ∀ c ∈ out.data, isJsWs c := blank_lines_all_ws out.data h
  have htrim : jsTrimList out.data = [] := jsTrimList_eq_nil_iff.mpr hws
  unfold parseGitDiffNumstat
  rw [htrim]
  rfl

/-- Witness for C5, at the single-trailing-empty-line input `"\n"`. -/
theorem parseGitDiffNumstat_zero_of_blank_witness :
    (∀ l ∈ splitLines "\n".data, jsTrimList l = []) ∧
      parseGitDiffNumstat "\n" = ⟨0, .int 0, .int 0⟩ :=
  ⟨by decide, parseGitDiffNumstat_zero_of_blank "\n" (by decide)⟩

/-! ## Claim C3 -/

/-- C3, counterexample to the claim as stated: on the input consisting of
exactly one non-blank line whose insertion and deletion columns are the
binary-file marker `-`, the parser reports `filesChanged = 1` but
`insertions` and `deletions` are `NaN` (`parseInt("-")`), not `0`: the
claimed `insertions == 0 and deletions == 0` is false. -/
theorem parseGitDiffNumstat_binary_cex :
    (parseGitDiffNumstat "-\t-\tlogo.png").filesChanged = 1 ∧
    (parseGitDiffNumstat "-\t-\tlogo.png").insertions ≠ JsNum.int 0 ∧
    (parseGitDiffNumstat "-\t-\tlogo.png").deletions ≠ JsNum.int 0 := by
  decide

/-- C3 as amended: for every numstat input string containing exactly one
non-blank line whose insertion and deletion columns are the non-numeric
binary-file marker `-`, `parseGitDiffNumstat` returns `filesChanged = 1`
and `insertions` and `deletions` both `NaN` (the `parseInt` of the marker;
the marker line is counted as a changed file, but the insertion/deletion
sums are poisoned to `NaN`, not left at `0`). -/
theorem parseGitDiffNumstat_binary (out : String) (L : List Char)
    (h1 : (splitLines (jsTrimList out.data)).filter
        (fun l => !(jsTrimList l).isEmpty) = [L])
    (h2 : (numstatCols L).get? 0 = some ['-'])
    (h3 : (numstatCols L).get? 1 = some ['-']) :
    parseGitDiffNumstat out = ⟨1, .nan, .nan⟩ := by
  have hmem : L ∈ (splitLines (jsTrimList out.data)).filter
      (fun l => !(jsTrimList l).isEmpty) := by
    rw [h1]; exact List.mem_cons_self _ _
  have hL : (jsTrimList L).isEmpty = false := by
    have := List.of_mem_filter hmem
    simpa using this
  unfold parseGitDiffNumstat
  rw [foldl_numstatStep_filter, h1]
  show numstatStep ⟨0, .int 0, .int 0⟩ L = ⟨1, .nan, .nan⟩
  unfold numstatStep
  rw [if_neg (by simp [hL]), h2, h3]
  rfl

/-- Witness for C3 as amended, at the input `"-\t-\tlogo.png"`. -/
theorem parseGitDiffNumstat_binary_witness :
    parseGitDiffNumstat "-\t-\tlogo.png" = ⟨1, .nan, .nan⟩ :=
  parseGitDiffNumstat_binary "-\t-\tlogo.png" "-\t-\tlogo.png".data
    (by decide) (by decide) (by decide)

/-! ## Claim C10 -/

/-- A trivial oracle used to instantiate world-quantified theorems at
concrete inputs. -/
def trivWorld : World :=
  ⟨fun _ => false, fun _ _ _ => ⟨true, "", ""⟩, none⟩

/-- C10: `unlinkForce` is idempotent.  For every filesystem, trace prefix
and path: (i) two successive calls succeed exactly when one call does;
(ii) a path absent at call time (`ENOENT`) yields a successful no-op that
leaves the filesystem unchanged; (iii) every raised failure carries an
error code other than `ENOENT` coming from the underlying `unlink`. -/
theorem unlinkForce_idempotent (w : World) (fs0 : String → FileBehavior)
    (tr0 : List Eff) (p : String) :
    (((M.bind (unlinkForce p) fun _ => unlinkForce p) w ⟨fs0, tr0⟩).1 = .ok () ↔
      (unlinkForce p w ⟨fs0, tr0⟩).1 = .ok ()) ∧
    (fs0 p = .absent →
      unlinkForce p w ⟨fs0, tr0⟩ = (.ok (), ⟨fs0, tr0 ++ [.unlinkAttempt p]⟩)) ∧
    (∀ e, (unlinkForce p w ⟨fs0, tr0⟩).1 = .error e →
      ∃ code, code ≠ "ENOENT" ∧ e = .fsFailure code ∧ fs0 p = .erroring code) := by
  refine ⟨?_, ?_, ?_⟩
  · cases h : fs0 p with
    | present =>
      simp [M.bind, unlinkForce, fsUnlink, h]
    | absent =>
      simp [M.bind, unlinkForce, fsUnlink, h]
    | erroring code =>
      by_cases hc : code = "ENOENT" <;>
        simp [M.bind, unlinkForce, fsUnlink, h, hc]
  · intro h
    simp [unlinkForce, fsUnlink, h]
  · intro e he
    cases h : fs0 p with
    | present => simp [unlinkForce, fsUnlink, h] at he
    | absent => simp [unlinkForce, fsUnlink, h] at he
    | erroring code =>
      by_cases hc : code = "ENOENT"
      · simp [unlinkForce, fsUnlink, h, hc] at he
      · refine ⟨code, hc, ?_, rfl⟩
        simp [unlinkForce, fsUnlink, h, hc] at he
        exact he.symm

/-- Witness for C10: on an all-absent filesystem the first call is a
successful no-op, and the double call succeeds as well. -/
theorem unlinkForce_idempotent_witness :
    unlinkForce "/tmp/x" trivWorld ⟨fun _ => .absent, []⟩ =
        (.ok (), ⟨fun _ => .absent, [.unlinkAttempt "/tmp/x"]⟩) ∧
      ((M.bind (unlinkForce "/tmp/x") fun _ => unlinkForce "/tmp/x")
          trivWorld ⟨fun _ => .absent, []⟩).1 = .ok () :=
  have h := unlinkForce_idempotent trivWorld (fun _ => .absent) [] "/tmp/x"
  ⟨h.2.1 rfl, h.1.mpr (by rw [h.2.1 rfl]) ⟩

/-! ## Claim C2 -/

/-- C2: for every sync cycle run against an existing repository directory
whose recorded `remote.origin.url` differs (exact string comparison, after
the `trim` the code applies to the tool output) from the configured remote
URL, the cycle fails with the configuration error
`Error("Unexpected remote URL")` thrown by `assert`, and its trace shows
that the only tool invocation performed is the read-only `config` lookup —
no fetch, no commit, and no push. -/
theorem gitSync_remote_mismatch (w : World) (st : Settings)
    (gitWorkTree timestamp : String) (s0 : SyncState)
    (hen : st.enabled = true)
    (hbin : (st.gitBinPath != "") = true)
    (hdir : (st.gitDir != "") = true)
    (hurl : (st.gitRemoteURL != "") = true)
    (hex : w.pathExists st.gitDir = true)
    (hcfg : (w.exec st.gitBinPath [("GIT_DIR", st.gitDir)]
        ["config", "--local", "remote.origin.url"]).exit0 = true)
    (hmism : (jsTrim (w.exec st.gitBinPath [("GIT_DIR", st.gitDir)]
        ["config", "--local", "remote.origin.url"]).stdout
        == st.gitRemoteURL) = false) :
    (gitSync st gitWorkTree timestamp w s0).1 =
        .error (.assertFail "Unexpected remote URL") ∧
      (gitSync st gitWorkTree timestamp w s0).2.trace =
        s0.trace ++ [.checkExists st.gitDir,
          .exec st.gitBinPath [("GIT_DIR", st.gitDir)]
            ["config", "--local", "remote.origin.url"],
          .consoleError "Unexpected remote URL"] := by
  constructor <;>
    simp [gitSync, gitFetch, fsExists, execEnv, assert, M.bind, M.pure,
      hen, hbin, hdir, hurl, hex, hcfg, hmism]

/-- The oracle of the C2 witness: the repository directory exists and its
recorded remote URL is the old one. -/
def mismatchWorld : World :=
  ⟨fun _ => true,
   fun _ _ args =>
     if args = ["config", "--local", "remote.origin.url"] then
       ⟨true, "https://old.example/repo.git\n", ""⟩
     else ⟨true, "", ""⟩,
   none⟩

/-- The settings shared by the concrete witnesses. -/
def wsettings : Settings :=
  ⟨true, "/usr/bin/git", "/cache/vault.git", "https://new.example/repo.git",
    "main", "user", "user@example.com", "", ""⟩

/-- Witness for C2 at a concrete mismatching world. -/
theorem gitSync_remote_mismatch_witness :
    (gitSync wsettings "/vault" "ts" mismatchWorld ⟨fun _ => .present, []⟩).1 =
      .error (.assertFail "Unexpected remote URL") :=
  (gitSync_remote_mismatch mismatchWorld wsettings "/vault" "ts"
    ⟨fun _ => .present, []⟩ rfl rfl rfl rfl rfl (by decide) (by decide)).1

/-! ## Claim C6 -/

/-- C6: a sync cycle started while the configured remote URL is empty
fails on the precondition `assert` with the configuration error
`Error("gitRemoteURL isn't set")` before any repository interaction — its
trace holds nothing but the assertion diagnostic, so no fetch, commit or
push and no repository mutation happened — while the read-only status
check `updateStatusBar` (which calls `gitStat`) proceeds on the very same
settings without consulting the remote URL: it succeeds, and its trace is
exactly the one read-only `diff --numstat HEAD` invocation. -/
theorem gitSync_empty_remoteURL (w : World) (st : Settings)
    (gitWorkTree timestamp : String) (s0 : SyncState)
    (hen : st.enabled = true)
    (hbin : (st.gitBinPath != "") = true)
    (hdir : (st.gitDir != "") = true)
    (hurl : st.gitRemoteURL = "")
    (hdiff : (w.exec st.gitBinPath
        [("GIT_DIR", st.gitDir), ("GIT_WORK_TREE", gitWorkTree)]
        ["diff", "--numstat", "HEAD"]).exit0 = true) :
    (gitSync st gitWorkTree timestamp w s0).1 =
        .error (.assertFail "gitRemoteURL isn't set") ∧
      (gitSync st gitWorkTree timestamp w s0).2.trace =
        s0.trace ++ [.consoleError "gitRemoteURL isn't set"] ∧
      (∃ txt, (updateStatusBar st true true gitWorkTree w s0).1 =
        .ok (some txt)) ∧
      (updateStatusBar st true true gitWorkTree w s0).2.trace =
        s0.trace ++ [.exec st.gitBinPath
          [("GIT_DIR", st.gitDir), ("GIT_WORK_TREE", gitWorkTree)]
          ["diff", "--numstat", "HEAD"]] := by
  have hbin' : (st.gitBinPath == "") = false := by
    simpa [bne] using hbin
  have hdir' : (st.gitDir == "") = false := by
    simpa [bne] using hdir
  refine ⟨?_, ?_, ?_, ?_⟩
  · simp [gitSync, assert, M.bind, hen, hbin, hdir, hurl]
  · simp [gitSync, assert, M.bind, hen, hbin, hdir, hurl]
  · simp [updateStatusBar, gitStat, execEnv, assert, M.bind, M.pure,
      hen, hbin', hdir', hdiff]
    split <;> exact ⟨_, rfl⟩
  · simp [updateStatusBar, gitStat, execEnv, assert, M.bind, M.pure,
      hen, hbin', hdir', hdiff]
    split <;> rfl

/-- The settings of the C6 witness: everything configured except the
remote URL. -/
def nourlSettings : Settings :=
  ⟨true, "/usr/bin/git", "/cache/vault.git", "", "main", "", "", "", ""⟩

/-- The oracle of the C6 witness: the read-only diff reports one changed
file. -/
def statWorld : World :=
  ⟨fun _ => true,
   fun _ _ args =>
     if args = ["diff", "--numstat", "HEAD"] then ⟨true, "1\t2\tnote.md\n", ""⟩
     else ⟨true, "", ""⟩,
   none⟩

/-- Witness for C6 at a concrete world with an empty remote URL. -/
theorem gitSync_empty_remoteURL_witness :
    (gitSync nourlSettings "/vault" "ts" statWorld ⟨fun _ => .present, []⟩).1 =
        .error (.assertFail "gitRemoteURL isn't set") ∧
      ∃ txt, (updateStatusBar nourlSettings true true "/vault" statWorld
          ⟨fun _ => .present, []⟩).1 = .ok (some txt) :=
  have h := gitSync_empty_remoteURL statWorld nourlSettings "/vault" "ts"
    ⟨fun _ => .present, []⟩ rfl rfl rfl rfl (by decide)
  ⟨h.1, h.2.2.1⟩

/-! ## Claim C1 -/

/-- The unlink outcomes that `unlinkForce` tolerates, so that the
always-running cleanup of `gitCommitAll` completes without raising: a
deletable file, an already-absent file, or an `ENOENT`-coded failure. -/
def cleanupOk : FileBehavior → Bool
  | .present => true
  | .absent => true
  | .erroring code => code == "ENOENT"

/-- C1: in a sync cycle whose preconditions hold and whose fetch and
staging invocations succeed, (i) if the staged diff against the last
commit parses to `filesChanged = 0`, `gitSync` returns `"No changes"` and
its trace contains no `commit` and no `push` invocation; (ii) if the
staged diff parses to `filesChanged = N > 0` and the commit, `rev-parse`
and push invocations succeed, `gitSync` returns `"Pushed N files"`. -/
theorem gitSync_cycle_result (w : World) (st : Settings)
    (gitWorkTree timestamp : String) (fs0 : String → FileBehavior)
    (hen : st.enabled = true)
    (hbin : (st.gitBinPath != "") = true)
    (hdir : (st.gitDir != "") = true)
    (hurl : (st.gitRemoteURL != "") = true)
    (hex : w.pathExists st.gitDir = true)
    (hcfg : (w.exec st.gitBinPath [("GIT_DIR", st.gitDir)]
        ["config", "--local", "remote.origin.url"]).exit0 = true)
    (hmatch : (jsTrim (w.exec st.gitBinPath [("GIT_DIR", st.gitDir)]
        ["config", "--local", "remote.origin.url"]).stdout
        == st.gitRemoteURL) = true)
    (hfetch : (w.exec st.gitBinPath [("GIT_DIR", st.gitDir)]
        ["fetch", "origin"]).exit0 = true)
    (hwrite : w.writeResult = none)
    (hreset : (w.exec st.gitBinPath
        (commitEnv st.gitDir gitWorkTree st.gitUserName st.gitUserEmail)
        ["reset", "--mixed", "HEAD"]).exit0 = true)
    (hrm : (w.exec st.gitBinPath
        (commitEnv st.gitDir gitWorkTree st.gitUserName st.gitUserEmail)
        ["rm", "-r", "--cached", "."]).exit0 = true)
    (hadd : (w.exec st.gitBinPath
        (commitEnv st.gitDir gitWorkTree st.gitUserName st.gitUserEmail)
        ["add", "."]).exit0 = true)
    (hdiffex : (w.exec st.gitBinPath
        (commitEnv st.gitDir gitWorkTree st.gitUserName st.gitUserEmail)
        ["diff", "--staged", "--numstat"]).exit0 = true)
    (hclean : cleanupOk (fs0 (st.gitDir ++ "/COMMIT_EDITMSG")) = true) :
    ((parseGitDiffNumstat (w.exec st.gitBinPath
        (commitEnv st.gitDir gitWorkTree st.gitUserName st.gitUserEmail)
        ["diff", "--staged", "--numstat"]).stdout).filesChanged = 0 →
      (gitSync st gitWorkTree timestamp w ⟨fs0, []⟩).1 = .ok "No changes" ∧
      ∀ file env args, Eff.exec file env args ∈
          (gitSync st gitWorkTree timestamp w ⟨fs0, []⟩).2.trace →
        args.head? ≠ some "commit" ∧ args.head? ≠ some "push") ∧
    (∀ N, (parseGitDiffNumstat (w.exec st.gitBinPath
        (commitEnv st.gitDir gitWorkTree st.gitUserName st.gitUserEmail)
        ["diff", "--staged", "--numstat"]).stdout).filesChanged = N → 0 < N →
      (w.exec st.gitBinPath
        (commitEnv st.gitDir gitWorkTree st.gitUserName st.gitUserEmail)
        ["commit", "--message", "vault backup: " ++ timestamp]).exit0 = true →
      (w.exec st.gitBinPath
        (commitEnv st.gitDir gitWorkTree st.gitUserName st.gitUserEmail)
        ["rev-parse", "HEAD"]).exit0 = true →
      (w.exec st.gitBinPath [("GIT_DIR", st.gitDir)]
        ["push", "origin", st.gitBranchName]).exit0 = true →
      (gitSync st gitWorkTree timestamp w ⟨fs0, []⟩).1 =
        .ok ("Pushed " ++ toString N ++ " files")) := by
  have hor : fs0 (st.gitDir ++ "/COMMIT_EDITMSG") = .present ∨
      fs0 (st.gitDir ++ "/COMMIT_EDITMSG") = .absent ∨
      fs0 (st.gitDir ++ "/COMMIT_EDITMSG") = .erroring "ENOENT" := by
    cases h : fs0 (st.gitDir ++ "/COMMIT_EDITMSG") with
    | present => exact .inl rfl
    | absent => exact .inr (.inl rfl)
    | erroring code =>
      have hc : code = "ENOENT" := by
        rw [h] at hclean
        simpa [cleanupOk] using hclean
      subst hc
      exact .inr (.inr rfl)
  constructor
  · intro h0
    constructor
    · rcases hor with hfb | hfb | hfb <;>
        simp [gitSync, gitFetch, gitCommitAll, gitCommitAllBody, gitPush,
          fsExists, execEnv, writeFile, assert, consoleAssert, M.bind, M.pure,
          M.tryFinally, unlinkForce, fsUnlink, hen, hbin, hdir, hurl, hex,
          hcfg, hmatch, hfetch, hwrite, hreset, hrm, hadd, hdiffex, h0, hfb]
    · rcases hor with hfb | hfb | hfb <;>
        · intro f e a ha
          simp [gitSync, gitFetch, gitCommitAll, gitCommitAllBody, gitPush,
            fsExists, execEnv, writeFile, assert, consoleAssert, M.bind, M.pure,
            M.tryFinally, unlinkForce, fsUnlink, hen, hbin, hdir, hurl, hex,
            hcfg, hmatch, hfetch, hwrite, hreset, hrm, hadd, hdiffex, h0,
            hfb] at ha
          rcases ha with h | h | h | h | h | h <;>
            · obtain ⟨-, -, rfl⟩ := h
              constructor <;> simp
  · intro N hN hNpos hcommit hrev hpush
    rcases Bool.eq_false_or_eq_true ((jsTrim (w.exec st.gitBinPath
        (commitEnv st.gitDir gitWorkTree st.gitUserName st.gitUserEmail)
        ["rev-parse", "HEAD"]).stdout).length == 40) with hsha | hsha <;>
      rcases hor with hfb | hfb | hfb <;>
        simp [gitSync, gitFetch, gitCommitAll, gitCommitAllBody, gitPush,
          fsExists, execEnv, writeFile, assert, consoleAssert, M.bind, M.pure,
          M.tryFinally, unlinkForce, fsUnlink, hen, hbin, hdir, hurl, hex,
          hcfg, hmatch, hfetch, hwrite, hreset, hrm, hadd, hdiffex, hN,
          hNpos, hcommit, hrev, hpush, hsha, hfb]

/-- The oracle of the C1 witness, push side: the recorded remote URL
matches, staging reports two changed files, and every invocation
succeeds. -/
def pushWorld : World :=
  ⟨fun _ => true,
   fun _ _ args =>
     if args = ["config", "--local", "remote.origin.url"] then
       ⟨true, "https://new.example/repo.git\n", ""⟩
     else if args = ["diff", "--staged", "--numstat"] then
       ⟨true, "3\t1\ta.md\n0\t0\tb.md\n", ""⟩
     else if args = ["rev-parse", "HEAD"] then
       ⟨true, "0123456789abcdef0123456789abcdef01234567\n", ""⟩
     else ⟨true, "", ""⟩,
   none⟩

/-- The oracle of the C1 witness, no-changes side: as `pushWorld` but the
staged diff is empty. -/
def noChangesWorld : World :=
  ⟨fun _ => true,
   fun _ _ args =>
     if args = ["config", "--local", "remote.origin.url"] then
       ⟨true, "https://new.example/repo.git\n", ""⟩
     else if args = ["diff", "--staged", "--numstat"] then
       ⟨true, "", ""⟩
     else ⟨true, "", ""⟩,
   none⟩

/-- Witness for C1: a two-file cycle returns `"Pushed 2 files"`, an
empty-diff cycle returns `"No changes"`. -/
theorem gitSync_cycle_result_witness :
    (gitSync wsettings "/vault" "ts" pushWorld ⟨fun _ => .present, []⟩).1 =
        .ok "Pushed 2 files" ∧
      (gitSync wsettings "/vault" "ts" noChangesWorld
          ⟨fun _ => .present, []⟩).1 = .ok "No changes" :=
  ⟨(gitSync_cycle_result pushWorld wsettings "/vault" "ts" (fun _ => .present)
      rfl rfl rfl rfl rfl (by decide) (by decide) (by decide) rfl (by decide)
      (by decide) (by decide) (by decide) rfl).2 2 (by decide) (by decide)
      (by decide) (by decide) (by decide),
   ((gitSync_cycle_result noChangesWorld wsettings "/vault" "ts"
      (fun _ => .present)
      rfl rfl rfl rfl rfl (by decide) (by decide) (by decide) rfl (by decide)
      (by decide) (by decide) (by decide) rfl).1 (by decide)).1⟩

/-! ## Claim C4 -/

/-- C4: a staged change set with `filesChanged = n > 0` but zero
insertions and zero deletions (e.g. a pure rename with identical content)
does not short-circuit the decide step: the emptiness test of
`gitCommitAll` is `stats.filesChanged > 0`, never the insertion+deletion
sum, so the commit invocation still runs and a commit record with
`filesChanged = n` is returned. -/
theorem gitCommitAll_rename_only (w : World)
    (gitBinPath gitDir gitWorkTree commitMessage gitUserName gitUserEmail
      gitIgnore : String)
    (fs0 : String → FileBehavior) (n : Nat)
    (hwrite : w.writeResult = none)
    (hreset : (w.exec gitBinPath
        (commitEnv gitDir gitWorkTree gitUserName gitUserEmail)
        ["reset", "--mixed", "HEAD"]).exit0 = true)
    (hrm : (w.exec gitBinPath
        (commitEnv gitDir gitWorkTree gitUserName gitUserEmail)
        ["rm", "-r", "--cached", "."]).exit0 = true)
    (hadd : (w.exec gitBinPath
        (commitEnv gitDir gitWorkTree gitUserName gitUserEmail)
        ["add", "."]).exit0 = true)
    (hdiffex : (w.exec gitBinPath
        (commitEnv gitDir gitWorkTree gitUserName gitUserEmail)
        ["diff", "--staged", "--numstat"]).exit0 = true)
    (hstats : parseGitDiffNumstat (w.exec gitBinPath
        (commitEnv gitDir gitWorkTree gitUserName gitUserEmail)
        ["diff", "--staged", "--numstat"]).stdout = ⟨n, .int 0, .int 0⟩)
    (hn : 0 < n)
    (hcommit : (w.exec gitBinPath
        (commitEnv gitDir gitWorkTree gitUserName gitUserEmail)
        ["commit", "--message", commitMessage]).exit0 = true)
    (hrev : (w.exec gitBinPath
        (commitEnv gitDir gitWorkTree gitUserName gitUserEmail)
        ["rev-parse", "HEAD"]).exit0 = true)
    (hclean : cleanupOk (fs0 (gitDir ++ "/COMMIT_EDITMSG")) = true) :
    (gitCommitAll gitBinPath gitDir gitWorkTree commitMessage gitUserName
        gitUserEmail gitIgnore w ⟨fs0, []⟩).1 =
      .ok (some ⟨jsTrim (w.exec gitBinPath
        (commitEnv gitDir gitWorkTree gitUserName gitUserEmail)
        ["rev-parse", "HEAD"]).stdout, n, .int 0, .int 0⟩) ∧
    Eff.exec gitBinPath (commitEnv gitDir gitWorkTree gitUserName gitUserEmail)
        ["commit", "--message", commitMessage] ∈
      (gitCommitAll gitBinPath gitDir gitWorkTree commitMessage gitUserName
        gitUserEmail gitIgnore w ⟨fs0, []⟩).2.trace := by
  have hor : fs0 (gitDir ++ "/COMMIT_EDITMSG") = .present ∨
      fs0 (gitDir ++ "/COMMIT_EDITMSG") = .absent ∨
      fs0 (gitDir ++ "/COMMIT_EDITMSG") = .erroring "ENOENT" := by
    cases h : fs0 (gitDir ++ "/COMMIT_EDITMSG") with
    | present => exact .inl rfl
    | absent => exact .inr (.inl rfl)
    | erroring code =>
      have hc : code = "ENOENT" := by
        rw [h] at hclean
        simpa [cleanupOk] using hclean
      subst hc
      exact .inr (.inr rfl)
  constructor <;>
    rcases Bool.eq_false_or_eq_true ((jsTrim (w.exec gitBinPath
        (commitEnv gitDir gitWorkTree gitUserName gitUserEmail)
        ["rev-parse", "HEAD"]).stdout).length == 40) with hsha | hsha <;>
      rcases hor with hfb | hfb | hfb <;>
        simp [gitCommitAll, gitCommitAllBody, execEnv, writeFile,
          consoleAssert, M.bind, M.pure, M.tryFinally, unlinkForce, fsUnlink,
          hwrite, hreset, hrm, hadd, hdiffex, hstats, hn, hcommit, hrev,
          hsha, hfb]

/-- The oracle of the C4 witness: the staged diff is a single rename-style
line with zero insertions and deletions. -/
def renameWorld : World :=
  ⟨fun _ => true,
   fun _ _ args =>
     if args = ["diff", "--staged", "--numstat"] then
       ⟨true, "0\t0\trenamed.md\n", ""⟩
     else if args = ["rev-parse", "HEAD"] then
       ⟨true, "0123456789abcdef0123456789abcdef01234567\n", ""⟩
     else ⟨true, "", ""⟩,
   none⟩

/-- Witness for C4: the rename-only cycle still commits. -/
theorem gitCommitAll_rename_only_witness :
    (gitCommitAll "/usr/bin/git" "/cache/vault.git" "/vault" "msg" "u" "u@e"
        "" renameWorld ⟨fun _ => .present, []⟩).1 =
      .ok (some ⟨"0123456789abcdef0123456789abcdef01234567", 1, .int 0,
        .int 0⟩) :=
  (gitCommitAll_rename_only renameWorld "/usr/bin/git" "/cache/vault.git"
    "/vault" "msg" "u" "u@e" "" (fun _ => .present) 1
    rfl (by decide) (by decide) (by decide) (by decide) (by decide)
    (by decide) (by decide) (by decide) rfl).1

/-! ## Claim C7 -/

/-- The oracle of the C7 counterexample: one changed file, every
invocation succeeding, but `rev-parse HEAD` produces the 3-character
identifier `"abc"`, not a 40-character hash. -/
def badShaWorld : World :=
  ⟨fun _ => true,
   fun _ _ args =>
     if args = ["config", "--local", "remote.origin.url"] then
       ⟨true, "https://new.example/repo.git\n", ""⟩
     else if args = ["diff", "--staged", "--numstat"] then
       ⟨true, "3\t1\ta.md\n", ""⟩
     else if args = ["rev-parse", "HEAD"] then
       ⟨true, "abc\n", ""⟩
     else ⟨true, "", ""⟩,
   none⟩

/-- C7, counterexample to the claim as stated: a cycle in which the
commit step's `rev-parse` returns a 3-character identifier does NOT fail —
`console.assert` only logs `"Bad commit SHA"` and the cycle completes
successfully, returning `"Pushed 1 files"`. -/
theorem gitSync_bad_sha_cex :
    (jsTrim "abc\n").length ≠ 40 ∧
      (gitSync wsettings "/vault" "ts" badShaWorld
          ⟨fun _ => .present, []⟩).1 = .ok "Pushed 1 files" ∧
      Eff.consoleError "Bad commit SHA" ∈
        (gitSync wsettings "/vault" "ts" badShaWorld
          ⟨fun _ => .present, []⟩).2.trace :=
  ⟨by decide, by rfl, by decide⟩

/-- C7 as amended: when the commit step's `rev-parse` of the new `HEAD`
returns an identifier whose trimmed length is not 40, the cycle does not
fail: `console.assert` records the `"Bad commit SHA"` diagnostic, but
`gitCommitAll` still returns that identifier in a successful result, and
the cycle completes normally. -/
theorem gitCommitAll_bad_sha (w : World)
    (gitBinPath gitDir gitWorkTree commitMessage gitUserName gitUserEmail
      gitIgnore : String)
    (fs0 : String → FileBehavior)
    (hwrite : w.writeResult = none)
    (hreset : (w.exec gitBinPath
        (commitEnv gitDir gitWorkTree gitUserName gitUserEmail)
        ["reset", "--mixed", "HEAD"]).exit0 = true)
    (hrm : (w.exec gitBinPath
        (commitEnv gitDir gitWorkTree gitUserName gitUserEmail)
        ["rm", "-r", "--cached", "."]).exit0 = true)
    (hadd : (w.exec gitBinPath
        (commitEnv gitDir gitWorkTree gitUserName gitUserEmail)
        ["add", "."]).exit0 = true)
    (hdiffex : (w.exec gitBinPath
        (commitEnv gitDir gitWorkTree gitUserName gitUserEmail)
        ["diff", "--staged", "--numstat"]).exit0 = true)
    (hn : 0 < (parseGitDiffNumstat (w.exec gitBinPath
        (commitEnv gitDir gitWorkTree gitUserName gitUserEmail)
        ["diff", "--staged", "--numstat"]).stdout).filesChanged)
    (hcommit : (w.exec gitBinPath
        (commitEnv gitDir gitWorkTree gitUserName gitUserEmail)
        ["commit", "--message", commitMessage]).exit0 = true)
    (hrev : (w.exec gitBinPath
        (commitEnv gitDir gitWorkTree gitUserName gitUserEmail)
        ["rev-parse", "HEAD"]).exit0 = true)
    (hsha : ((jsTrim (w.exec gitBinPath
        (commitEnv gitDir gitWorkTree gitUserName gitUserEmail)
        ["rev-parse", "HEAD"]).stdout).length == 40) = false)
    (hclean : cleanupOk (fs0 (gitDir ++ "/COMMIT_EDITMSG")) = true) :
    (∃ info, (gitCommitAll gitBinPath gitDir gitWorkTree commitMessage
        gitUserName gitUserEmail gitIgnore w ⟨fs0, []⟩).1 =
          .ok (some info) ∧
      info.commitSha = jsTrim (w.exec gitBinPath
        (commitEnv gitDir gitWorkTree gitUserName gitUserEmail)
        ["rev-parse", "HEAD"]).stdout) ∧
    Eff.consoleError "Bad commit SHA" ∈
      (gitCommitAll gitBinPath gitDir gitWorkTree commitMessage gitUserName
        gitUserEmail gitIgnore w ⟨fs0, []⟩).2.trace := by
  have hor : fs0 (gitDir ++ "/COMMIT_EDITMSG") = .present ∨
      fs0 (gitDir ++ "/COMMIT_EDITMSG") = .absent ∨
      fs0 (gitDir ++ "/COMMIT_EDITMSG") = .erroring "ENOENT" := by
    cases h : fs0 (gitDir ++ "/COMMIT_EDITMSG") with
    | present => exact .inl rfl
    | absent => exact .inr (.inl rfl)
    | erroring code =>
      have hc : code = "ENOENT" := by
        rw [h] at hclean
        simpa [cleanupOk] using hclean
      subst hc
      exact .inr (.inr rfl)
  constructor
  · refine ⟨⟨jsTrim (w.exec gitBinPath
        (commitEnv gitDir gitWorkTree gitUserName gitUserEmail)
        ["rev-parse", "HEAD"]).stdout,
      (parseGitDiffNumstat (w.exec gitBinPath
        (commitEnv gitDir gitWorkTree gitUserName gitUserEmail)
        ["diff", "--staged", "--numstat"]).stdout).filesChanged,
      (parseGitDiffNumstat (w.exec gitBinPath
        (commitEnv gitDir gitWorkTree gitUserName gitUserEmail)
        ["diff", "--staged", "--numstat"]).stdout).insertions,
      (parseGitDiffNumstat (w.exec gitBinPath
        (commitEnv gitDir gitWorkTree gitUserName gitUserEmail)
        ["diff", "--staged", "--numstat"]).stdout).deletions⟩, ?_, rfl⟩
    rcases hor with hfb | hfb | hfb <;>
      simp [gitCommitAll, gitCommitAllBody, execEnv, writeFile,
        consoleAssert, M.bind, M.pure, M.tryFinally, unlinkForce, fsUnlink,
        hwrite, hreset, hrm, hadd, hdiffex, hn, hcommit, hrev, hsha, hfb]
  · rcases hor with hfb | hfb | hfb <;>
      simp [gitCommitAll, gitCommitAllBody, execEnv, writeFile,
        consoleAssert, M.bind, M.pure, M.tryFinally, unlinkForce, fsUnlink,
        hwrite, hreset, hrm, hadd, hdiffex, hn, hcommit, hrev, hsha, hfb]

/-- Witness for C7 as amended, at `badShaWorld`. -/
theorem gitCommitAll_bad_sha_witness :
    ∃ info, (gitCommitAll "/usr/bin/git" "/cache/vault.git" "/vault" "msg"
        "u" "u@e" "" badShaWorld ⟨fun _ => .present, []⟩).1 =
          .ok (some info) ∧
      info.commitSha = jsTrim "abc\n" :=
  (gitCommitAll_bad_sha badShaWorld "/usr/bin/git" "/cache/vault.git"
    "/vault" "msg" "u" "u@e" "" (fun _ => .present)
    rfl (by decide) (by decide) (by decide) (by decide) (by decide)
    (by decide) (by decide) (by decide) rfl).1

/-! ## Claim C8 -/

/-- A computation that never touches the filesystem component of the
state (it may execute tools and append to the trace, but performs no
`unlink`). -/
def FsPres (x : M α) : Prop := ∀ w s, ((x w s).2).fs = s.fs

theorem fsPres_pure (a : α) : FsPres (M.pure a) := fun _ _ => rfl

theorem fsPres_bind {x : M α} {f : α → M β} (hx : FsPres x)
    (hf : ∀ a, FsPres (f a)) : FsPres (M.bind x f) := by
  intro w s
  unfold M.bind
  rcases hres : x w s with ⟨r, s'⟩
  have hs' : s'.fs = s.fs := by
    have h := hx w s
    rw [hres] at h
    exact h
  cases r with
  | ok a =>
    simp only []
    rw [hf a w s', hs']
  | error e =>
    simpa using hs'

theorem fsPres_tryCatch {x : M α} {h : JsError → M α} (hx : FsPres x)
    (hh : ∀ e, FsPres (h e)) : FsPres (M.tryCatch x h) := by
  intro w s
  unfold M.tryCatch
  rcases hres : x w s with ⟨r, s'⟩
  have hs' : s'.fs = s.fs := by
    have hq := hx w s
    rw [hres] at hq
    exact hq
  cases r with
  | ok a => simpa using hs'
  | error e =>
    simp only []
    rw [hh e w s', hs']

theorem fsPres_execEnv (file : String) (env : List (String × String))
    (args : List String) : FsPres (execEnv file env args) := by
  intro w s
  simp only [execEnv]
  split <;> rfl

/-- The first-revision commit body performs no `unlink`: it leaves the
filesystem component of the state unchanged, whatever the tool outcomes. -/
theorem fsPres_gitCommitAllV1Body (gitBinPath gitDir gitWorkTree
    commitMessage gitUserName gitUserEmail indexFile : String) :
    FsPres (gitCommitAllV1Body gitBinPath gitDir gitWorkTree commitMessage
      gitUserName gitUserEmail indexFile) := by
  unfold gitCommitAllV1Body
  apply fsPres_bind (fsPres_execEnv _ _ _)
  intro _
  apply fsPres_bind
  · exact fsPres_tryCatch
      (fsPres_bind (fsPres_execEnv _ _ _) fun _ => fsPres_pure _)
      (fun _ => fsPres_pure _)
  · intro hasChanges
    cases hasChanges with
    | false => exact fsPres_pure _
    | true =>
      exact fsPres_bind (fsPres_execEnv _ _ _)
        fun _ => fsPres_bind (fsPres_execEnv _ _ _) fun _ => fsPres_pure _

/-- C8: for every cycle of the first-revision `gitCommitAll` (the revision
that creates a transient per-cycle index file), whatever the tool
outcomes: (i) the cleanup always attempts to remove the `COMMIT_EDITMSG`
scratch file, on success and on failure of the staging/commit body;
(ii) whenever that removal does not raise (file deletable, already absent,
or `ENOENT`), the transient index file removal is attempted as well;
(iii) when both removals find a deletable or already-absent file, cleanup
changes nothing about the outcome — the call returns exactly the body's
result, so a missing file during cleanup is not an error; (iv) a
`COMMIT_EDITMSG` removal failure with any code other than `ENOENT`
propagates to the caller as the result of the call; (v) likewise for the
transient index file: when the scratch-file removal is benign and the
index-file removal fails with a code other than `ENOENT`, that code
propagates as the result of the call. -/
theorem gitCommitAllV1_cleanup_always (w : World)
    (gitBinPath gitDir gitWorkTree commitMessage gitUserName gitUserEmail
      randSuffix : String)
    (fs0 : String → FileBehavior)
    (hne : gitDir ++ "/index." ++ randSuffix ≠ gitDir ++ "/COMMIT_EDITMSG") :
    Eff.unlinkAttempt (gitDir ++ "/COMMIT_EDITMSG") ∈
      (gitCommitAllV1 gitBinPath gitDir gitWorkTree commitMessage
        gitUserName gitUserEmail randSuffix w ⟨fs0, []⟩).2.trace ∧
    (cleanupOk (fs0 (gitDir ++ "/COMMIT_EDITMSG")) = true →
      Eff.unlinkAttempt (gitDir ++ "/index." ++ randSuffix) ∈
        (gitCommitAllV1 gitBinPath gitDir gitWorkTree commitMessage
          gitUserName gitUserEmail randSuffix w ⟨fs0, []⟩).2.trace) ∧
    (cleanupOk (fs0 (gitDir ++ "/COMMIT_EDITMSG")) = true →
      cleanupOk (fs0 (gitDir ++ "/index." ++ randSuffix)) = true →
      (gitCommitAllV1 gitBinPath gitDir gitWorkTree commitMessage
        gitUserName gitUserEmail randSuffix w ⟨fs0, []⟩).1 =
      (gitCommitAllV1Body gitBinPath gitDir gitWorkTree commitMessage
        gitUserName gitUserEmail (gitDir ++ "/index." ++ randSuffix) w
        ⟨fs0, []⟩).1) ∧
    (∀ code, fs0 (gitDir ++ "/COMMIT_EDITMSG") = .erroring code →
      code ≠ "ENOENT" →
      (gitCommitAllV1 gitBinPath gitDir gitWorkTree commitMessage
        gitUserName gitUserEmail randSuffix w ⟨fs0, []⟩).1 =
        .error (.fsFailure code)) ∧
    (∀ code, cleanupOk (fs0 (gitDir ++ "/COMMIT_EDITMSG")) = true →
      fs0 (gitDir ++ "/index." ++ randSuffix) = .erroring code →
      code ≠ "ENOENT" →
      (gitCommitAllV1 gitBinPath gitDir gitWorkTree commitMessage
        gitUserName gitUserEmail randSuffix w ⟨fs0, []⟩).1 =
        .error (.fsFailure code)) := by
  rcases hbody : gitCommitAllV1Body gitBinPath gitDir gitWorkTree
      commitMessage gitUserName gitUserEmail
      (gitDir ++ "/index." ++ randSuffix) w ⟨fs0, []⟩ with ⟨rb, sb⟩
  have hfs : sb.fs = fs0 := by
    have h := fsPres_gitCommitAllV1Body gitBinPath gitDir gitWorkTree
      commitMessage gitUserName gitUserEmail
      (gitDir ++ "/index." ++ randSuffix) w ⟨fs0, []⟩
    rw [hbody] at h
    exact h
  refine ⟨?_, ?_, ?_, ?_, ?_⟩
  · cases rb <;>
      cases hm : fs0 (gitDir ++ "/COMMIT_EDITMSG") <;>
        cases hi : fs0 (gitDir ++ "/index." ++ randSuffix) <;>
          first
          | (simp [gitCommitAllV1, M.tryFinally, gitCommitAllV1Cleanup,
               unlinkForce, fsUnlink, M.bind, hbody, hfs, hm, hi, hne]
             done)
          | (rename_i code
             by_cases hc : code = "ENOENT" <;>
               simp [gitCommitAllV1, M.tryFinally, gitCommitAllV1Cleanup,
                 unlinkForce, fsUnlink, M.bind, hbody, hfs, hm, hi, hne,
                 hc] <;>
               done)
          | (rename_i code1 code2
             by_cases hc1 : code1 = "ENOENT" <;>
               by_cases hc2 : code2 = "ENOENT" <;>
                 simp [gitCommitAllV1, M.tryFinally, gitCommitAllV1Cleanup,
                   unlinkForce, fsUnlink, M.bind, hbody, hfs, hm, hi, hne,
                   hc1, hc2] <;>
                 done)
  · intro hcm
    have hor : fs0 (gitDir ++ "/COMMIT_EDITMSG") = .present ∨
        fs0 (gitDir ++ "/COMMIT_EDITMSG") = .absent ∨
        fs0 (gitDir ++ "/COMMIT_EDITMSG") = .erroring "ENOENT" := by
      cases h : fs0 (gitDir ++ "/COMMIT_EDITMSG") with
      | present => exact .inl rfl
      | absent => exact .inr (.inl rfl)
      | erroring code =>
        have hc : code = "ENOENT" := by
          rw [h] at hcm
          simpa [cleanupOk] using hcm
        subst hc
        exact .inr (.inr rfl)
    cases rb <;>
      rcases hor with hm | hm | hm <;>
        cases hi : fs0 (gitDir ++ "/index." ++ randSuffix) <;>
          first
          | (simp [gitCommitAllV1, M.tryFinally, gitCommitAllV1Cleanup,
               unlinkForce, fsUnlink, M.bind, hbody, hfs, hm, hi, hne]
             done)
          | (rename_i code
             by_cases hc : code = "ENOENT" <;>
               simp [gitCommitAllV1, M.tryFinally, gitCommitAllV1Cleanup,
                 unlinkForce, fsUnlink, M.bind, hbody, hfs, hm, hi, hne,
                 hc] <;>
               done)
  · intro hcm hci
    have hor : fs0 (gitDir ++ "/COMMIT_EDITMSG") = .present ∨
        fs0 (gitDir ++ "/COMMIT_EDITMSG") = .absent ∨
        fs0 (gitDir ++ "/COMMIT_EDITMSG") = .erroring "ENOENT" := by
      cases h : fs0 (gitDir ++ "/COMMIT_EDITMSG") with
      | present => exact .inl rfl
      | absent => exact .inr (.inl rfl)
      | erroring code =>
        have hc : code = "ENOENT" := by
          rw [h] at hcm
          simpa [cleanupOk] using hcm
        subst hc
        exact .inr (.inr rfl)
    have hori : fs0 (gitDir ++ "/index." ++ randSuffix) = .present ∨
        fs0 (gitDir ++ "/index." ++ randSuffix) = .absent ∨
        fs0 (gitDir ++ "/index." ++ randSuffix) = .erroring "ENOENT" := by
      cases h : fs0 (gitDir ++ "/index." ++ randSuffix) with
      | present => exact .inl rfl
      | absent => exact .inr (.inl rfl)
      | erroring code =>
        have hc : code = "ENOENT" := by
          rw [h] at hci
          simpa [cleanupOk] using hci
        subst hc
        exact .inr (.inr rfl)
    cases rb <;>
      rcases hor with hm | hm | hm <;>
        rcases hori with hi | hi | hi <;>
          simp [gitCommitAllV1, M.tryFinally, gitCommitAllV1Cleanup,
            unlinkForce, fsUnlink, M.bind, hbody, hfs, hm, hi, hne]
  · intro code hm hcode
    cases rb <;>
      simp [gitCommitAllV1, M.tryFinally, gitCommitAllV1Cleanup,
        unlinkForce, fsUnlink, M.bind, hbody, hfs, hm, hcode]
  · intro code hcm hi hcode
    have hor : fs0 (gitDir ++ "/COMMIT_EDITMSG") = .present ∨
        fs0 (gitDir ++ "/COMMIT_EDITMSG") = .absent ∨
        fs0 (gitDir ++ "/COMMIT_EDITMSG") = .erroring "ENOENT" := by
      cases h : fs0 (gitDir ++ "/COMMIT_EDITMSG") with
      | present => exact .inl rfl
      | absent => exact .inr (.inl rfl)
      | erroring code' =>
        have hc : code' = "ENOENT" := by
          rw [h] at hcm
          simpa [cleanupOk] using hcm
        subst hc
        exact .inr (.inr rfl)
    cases rb <;>
      rcases hor with hm | hm | hm <;>
        simp [gitCommitAllV1, M.tryFinally, gitCommitAllV1Cleanup,
          unlinkForce, fsUnlink, M.bind, hbody, hfs, hm, hi, hne, hcode]

/-- Witness for C8 at a concrete cycle: on an all-present filesystem both
transient files are removed and the call returns the body's result; on a
filesystem where only the transient index file errors with `EACCES`, that
code propagates as the call's result. -/
theorem gitCommitAllV1_cleanup_always_witness :
    Eff.unlinkAttempt "/cache/vault.git/COMMIT_EDITMSG" ∈
      (gitCommitAllV1 "/usr/bin/git" "/cache/vault.git" "/vault" "msg" "u"
        "u@e" "abc123" trivWorld ⟨fun _ => .present, []⟩).2.trace ∧
    Eff.unlinkAttempt "/cache/vault.git/index.abc123" ∈
      (gitCommitAllV1 "/usr/bin/git" "/cache/vault.git" "/vault" "msg" "u"
        "u@e" "abc123" trivWorld ⟨fun _ => .present, []⟩).2.trace ∧
    (gitCommitAllV1 "/usr/bin/git" "/cache/vault.git" "/vault" "msg" "u"
        "u@e" "abc123" trivWorld
        ⟨fun p => if p = "/cache/vault.git/index.abc123" then
          .erroring "EACCES" else .present, []⟩).1 =
      .error (.fsFailure "EACCES") :=
  have h := gitCommitAllV1_cleanup_always trivWorld "/usr/bin/git"
    "/cache/vault.git" "/vault" "msg" "u" "u@e" "abc123"
    (fun _ => .present) (by decide)
  have h2 := gitCommitAllV1_cleanup_always trivWorld "/usr/bin/git"
    "/cache/vault.git" "/vault" "msg" "u" "u@e" "abc123"
    (fun p => if p = "/cache/vault.git/index.abc123" then
      .erroring "EACCES" else .present) (by decide)
  ⟨h.1, h.2.1 rfl, h2.2.2.2.2 "EACCES" (by decide) (by decide) (by decide)⟩
